import Mathlib

/-!
Verification development for the `yandex-query-go` client library.

The Go source has two components: a request orchestrator (client
configuration, header construction, retry loop `doRequest`, response
validation `validateHTTPError`, query lifecycle operations) and a result
decoder (`Results` with per-column-type cell conversion).  This file gives a
shallow embedding of those functions and proves the specification claims
about them.

Modelling conventions:
- Machine integers are `Nat`/`Int`; `float64` cell values and
  `strconv.ParseFloat` are idealised as exact rationals (`ℚ`) with a
  decimal parser, since no claim depends on rounding.
- Decoded JSON documents (`map[string]interface{}`) are `JSONVal` /
  association lists; Go's `nil` interface value (absent key, JSON null)
  is `JSONVal.null`.
- Time (`time.Sleep`, `time.After`, `time.Since`) is modelled by recording
  the waits a loop performs, in milliseconds, and measuring elapsed time as
  the sum of completed waits (remote calls are instantaneous in the model).
- Effectful oracles (the HTTP transport, the remote status endpoint, the
  context's cancellation) are function parameters indexed by attempt / poll
  number; loops that Go writes as unbounded `for` are given explicit fuel.
-/

namespace YQ

/-- Mirrors the Go constant `MaxRetryForSession = 4`. -/
def MaxRetryForSession : Nat := 4

/-- Mirrors `TimeBetweenRetries = 1000 * time.Millisecond`, in milliseconds. -/
def TimeBetweenRetries : Nat := 1000

/-- Mirrors `DefaultUserAgent`. -/
def DefaultUserAgent : String := "Go YQ HTTP SDK"

/-- Mirrors `DefaultEndpoint`. -/
def DefaultEndpoint : String := "https://api.yandex-query.cloud.yandex.net"

/-- Mirrors `DefaultWebBaseURL`. -/
def DefaultWebBaseURL : String := "https://yq.cloud.yandex.ru"

/-- Mirrors `DefaultTokenPrefix`. -/
def DefaultTokenPrefix : String := "Bearer "

/-- Decoded JSON value, as produced by Go's `encoding/json` into
`interface{}`.  `null` doubles as Go's `nil` interface value (what a map
lookup on an absent key returns, and what a JSON `null` decodes to). -/
inductive JSONVal : Type where
  | null : JSONVal
  | boolVal (b : Bool) : JSONVal
  | num (q : ℚ) : JSONVal
  | str (s : String) : JSONVal
  | arr (elems : List JSONVal) : JSONVal
  | obj (fields : List (String × JSONVal)) : JSONVal

/-- Go `== nil` test on an interface value. -/
def JSONVal.isNull : JSONVal → Bool
  | JSONVal.null => true
  | _ => false

/-- Go map lookup `body[key]` on a decoded JSON object: an absent key yields
the `nil` interface value, modelled as `JSONVal.null`. -/
def goLookup (fields : List (String × JSONVal)) (key : String) : JSONVal :=
  match fields.lookup key with
  | some v => v
  | none => JSONVal.null

/-- Go `fmt.Sprintf` `%v` rendering of a decoded JSON value.  Faithful
for strings (printed bare), `nil` (printed `<nil>`) and booleans; the
rendering of numbers and composites is idealised (no claim depends on it). -/
def goSprintV : JSONVal → String
  | JSONVal.null => "<nil>"
  | JSONVal.boolVal b => cond b "true" "false"
  | JSONVal.num q => toString q
  | JSONVal.str s => s
  | JSONVal.arr _ => "[...]"
  | JSONVal.obj _ => "map[...]"

/-! ### Base64 decoding (`encoding/base64` StdEncoding) -/

/-- Value of a character in the standard base64 alphabet. -/
def b64Val (c : Char) : Option Nat :=
  if 'A' ≤ c ∧ c ≤ 'Z' then some (c.toNat - 65)
  else if 'a' ≤ c ∧ c ≤ 'z' then some (c.toNat - 97 + 26)
  else if '0' ≤ c ∧ c ≤ '9' then some (c.toNat - 48 + 52)
  else if c = '+' then some 62
  else if c = '/' then some 63
  else none

/-- Decode a base64 character stream in blocks of four, producing bytes.
Padding `=` is accepted only at the end of the final block (one or two
characters); any other shape is an error, like Go's
`base64.StdEncoding.DecodeString`. -/
def b64DecodeBlocks : List Char → Option (List Nat)
  | [] => some []
  | c1 :: c2 :: c3 :: c4 :: rest => do
    let v1 ← b64Val c1
    let v2 ← b64Val c2
    if c3 = '=' then
      if c4 = '=' ∧ rest = [] then
        some [v1 * 4 + v2 / 16]
      else none
    else do
      let v3 ← b64Val c3
      if c4 = '=' then
        if rest = [] then some [v1 * 4 + v2 / 16, (v2 % 16) * 16 + v3 / 4]
        else none
      else do
        let v4 ← b64Val c4
        let tail ← b64DecodeBlocks rest
        some ((v1 * 4 + v2 / 16) :: ((v2 % 16) * 16 + v3 / 4) :: ((v3 % 4) * 64 + v4) :: tail)
  | _ => none

/-- Go `base64.StdEncoding.DecodeString`: the decoder ignores `\r` and `\n`,
requires the remaining length to be a multiple of four, and rejects
characters outside the alphabet.  Decoded bytes are presented as a string
(faithful for ASCII payloads). -/
def base64Decode (s : String) : Option String :=
  let cs := s.data.filter (fun c => ¬(c = '\r' ∨ c = '\n'))
  (b64DecodeBlocks cs).map (fun bytes => String.mk (bytes.map Char.ofNat))

/-! ### Decimal float parsing (`strconv.ParseFloat`, idealised to `ℚ`) -/

/-- Numeric value of a digit list (most significant first). -/
def digitsToNat (ds : List Char) : Nat :=
  ds.foldl (fun a c => a * 10 + (c.toNat - 48)) 0

/-- Parse an optional exponent suffix `e`/`E` with optional sign; the whole
remainder must be consumed.  An empty remainder means exponent 0. -/
def parseExponent : List Char → Option Int
  | [] => some 0
  | e :: rest =>
    if e = 'e' ∨ e = 'E' then
      match rest with
      | '+' :: ds => if ds ≠ [] ∧ ds.all Char.isDigit then some (digitsToNat ds) else none
      | '-' :: ds => if ds ≠ [] ∧ ds.all Char.isDigit then some (-(digitsToNat ds : Int)) else none
      | ds => if ds ≠ [] ∧ ds.all Char.isDigit then some (digitsToNat ds) else none
    else none

/-- Parse an unsigned decimal mantissa with optional fractional part and
exponent: `digits [. digits] [exponent]`, requiring at least one digit.
The result is the syntactic decimal `(mantissa, scale, exponent)`, denoting
`mantissa / 10^scale * 10^exponent`. -/
def parseUnsignedDecimal (cs : List Char) : Option (Nat × Nat × Int) :=
  let intPart := cs.takeWhile Char.isDigit
  let rest1 := cs.dropWhile Char.isDigit
  match rest1 with
  | '.' :: cs2 =>
    let fracPart := cs2.takeWhile Char.isDigit
    let rest2 := cs2.dropWhile Char.isDigit
    if intPart = [] ∧ fracPart = [] then none
    else
      match parseExponent rest2 with
      | some e =>
        some (digitsToNat intPart * 10 ^ fracPart.length + digitsToNat fracPart, fracPart.length, e)
      | none => none
  | rest =>
    if intPart = [] then none
    else
      match parseExponent rest with
      | some e => some (digitsToNat intPart, 0, e)
      | none => none

/-- The exact rational a syntactic decimal denotes. -/
def decimalToRat (dec : Nat × Nat × Int) : ℚ :=
  (dec.1 : ℚ) / (10 : ℚ) ^ dec.2.1 * (10 : ℚ) ^ dec.2.2

/-- Go `strconv.ParseFloat(s, 64)`, idealised: optional sign followed by a
decimal number, evaluated exactly in `ℚ` instead of rounding to binary
floating point.  Strings Go would reject (empty, trailing garbage, no
digits) yield `none`. -/
def parseGoFloat (s : String) : Option ℚ :=
  match s.data with
  | [] => none
  | c :: cs =>
    if c = '+' then (parseUnsignedDecimal cs).map decimalToRat
    else if c = '-' then (parseUnsignedDecimal cs).map (fun d => -decimalToRat d)
    else (parseUnsignedDecimal (c :: cs)).map decimalToRat

/-! ### RFC 3339 timestamp parsing (`time.Parse(time.RFC3339, s)`) -/

/-- The structured value Go's `time.Parse` produces, as the claims need it:
calendar fields plus fractional-second nanoseconds and the zone offset in
minutes (`Z` is offset 0). -/
structure GoTime where
  year : Int
  month : Nat
  day : Nat
  hour : Nat
  minute : Nat
  second : Nat
  nanos : Nat
  offsetMinutes : Int
deriving DecidableEq, Repr

/-- Take exactly `n` leading digits, returning their value and the rest. -/
def takeDigitsAux : List Char → Nat → Nat → Option (Nat × List Char)
  | cs, 0, acc => some (acc, cs)
  | [], _ + 1, _ => none
  | c :: cs, n + 1, acc =>
    if c.isDigit then takeDigitsAux cs n (acc * 10 + (c.toNat - 48)) else none

/-- Expect one specific character. -/
def expectChar : List Char → Char → Option (List Char)
  | c :: cs, e => if c = e then some cs else none
  | [], _ => none

/-- Optional fractional seconds: `.` followed by one to nine digits,
scaled to nanoseconds. -/
def parseFraction : List Char → Option (Nat × List Char)
  | '.' :: cs =>
    let digs := cs.takeWhile Char.isDigit
    let rest := cs.dropWhile Char.isDigit
    if digs.length = 0 ∨ digs.length > 9 then none
    else some (digitsToNat digs * 10 ^ (9 - digs.length), rest)
  | cs => some (0, cs)

/-- Numeric zone offset `HH:MM` with the given sign, in minutes. -/
def parseZoneOffset (cs : List Char) (sign : Int) : Option (Int × List Char) := do
  let (hh, cs1) ← takeDigitsAux cs 2 0
  let cs2 ← expectChar cs1 ':'
  let (mm, cs3) ← takeDigitsAux cs2 2 0
  if hh ≤ 23 ∧ mm ≤ 59 then some (sign * ((hh : Int) * 60 + mm), cs3) else none

/-- Zone part: `Z` or `±HH:MM`. -/
def parseZone : List Char → Option (Int × List Char)
  | 'Z' :: cs => some (0, cs)
  | '+' :: cs => parseZoneOffset cs 1
  | '-' :: cs => parseZoneOffset cs (-1)
  | _ => none

/-- Go `time.Parse(time.RFC3339, s)`: the exact layout
`YYYY-MM-DDTHH:MM:SS[.frac](Z|±HH:MM)` with basic range validation;
anything else is a parse error (`none`). -/
def parseRFC3339 (s : String) : Option GoTime := do
  let (y, cs1) ← takeDigitsAux s.data 4 0
  let cs2 ← expectChar cs1 '-'
  let (mo, cs3) ← takeDigitsAux cs2 2 0
  let cs4 ← expectChar cs3 '-'
  let (d, cs5) ← takeDigitsAux cs4 2 0
  let cs6 ← expectChar cs5 'T'
  let (h, cs7) ← takeDigitsAux cs6 2 0
  let cs8 ← expectChar cs7 ':'
  let (mi, cs9) ← takeDigitsAux cs8 2 0
  let cs10 ← expectChar cs9 ':'
  let (sec, cs11) ← takeDigitsAux cs10 2 0
  let (nanos, cs12) ← parseFraction cs11
  let (offMin, cs13) ← parseZone cs12
  if cs13 = [] ∧ 1 ≤ mo ∧ mo ≤ 12 ∧ 1 ≤ d ∧ d ≤ 31 ∧ h ≤ 23 ∧ mi ≤ 59 ∧ sec ≤ 59 then
    some ⟨(y : Int), mo, d, h, mi, sec, nanos, offMin⟩
  else none

/-! ### Result cell conversion (`result.go`) -/

/-- One result cell (`interface{}` in Go).  Raw cells from JSON are
strings, numbers, booleans, null, or composites (modelled opaquely by
`other`, since every converter passes non-scalar values through);
`timeVal` is the `time.Time` a datetime conversion produces. -/
inductive Cell : Type where
  | str (s : String) : Cell
  | num (q : ℚ) : Cell
  | boolVal (b : Bool) : Cell
  | null : Cell
  | timeVal (t : GoTime) : Cell
  | other (tag : Nat) : Cell
deriving DecidableEq, Repr

/-- Mirrors `convertFromBase64`: on a string cell, base64-decode it and
return the decoded text; on decode failure or a non-string cell, return
the original value. -/
def convertFromBase64 (v : Cell) : Cell :=
  match v with
  | Cell.str s =>
    match base64Decode s with
    | some decoded => Cell.str decoded
    | none => v
  | _ => v

/-- Mirrors `convertFromFloat`: a float cell passes through, a string cell
is parsed as a float (original returned on parse failure), anything else
passes through. -/
def convertFromFloat (v : Cell) : Cell :=
  match v with
  | Cell.num q => Cell.num q
  | Cell.str s =>
    match parseGoFloat s with
    | some f => Cell.num f
    | none => v
  | _ => v

/-- Mirrors `convertFromDatetime`: a string cell is parsed as RFC 3339
(original returned on parse failure), anything else passes through. -/
def convertFromDatetime (v : Cell) : Cell :=
  match v with
  | Cell.str s =>
    match parseRFC3339 s with
    | some t => Cell.timeVal t
    | none => v
  | _ => v

/-- The first arm of the `getConverter` type switch: type names mapped to
the identity conversion. -/
def identityTypeNames : List String :=
  ["Int8", "Int16", "Int32", "Int64", "Uint8", "Uint16", "Uint32", "Uint64",
   "Bool", "Utf8", "Uuid", "Void", "Null", "EmptyList", "Struct<>", "Tuple<>"]

/-- Mirrors `getConverter`: dispatch on the column type name, with an
identity default arm for unknown types. -/
def getConverter (columnType : String) : Cell → Cell :=
  if columnType ∈ identityTypeNames then fun v => v
  else if columnType = "String" then convertFromBase64
  else if columnType = "Float" ∨ columnType = "Double" then convertFromFloat
  else if columnType = "Date" ∨ columnType = "Datetime" ∨ columnType = "Timestamp" then convertFromDatetime
  else fun v => v

/-- Every type name `getConverter` recognises (all non-default arms). -/
def recognizedTypeNames : List String :=
  identityTypeNames ++ ["String", "Float", "Double", "Date", "Datetime", "Timestamp"]

/-! ### The `Results` wrapper (`result.go`) -/

/-- One column descriptor `{name, type}` of a result document. -/
structure Column where
  name : String
  colType : String
deriving DecidableEq, Repr

/-- A result document as `convert` consumes it: the `columns` and `rows`
entries of the raw map (whose shape `convert` asserts). -/
structure ResultDoc where
  columns : List Column
  rows : List (List Cell)
deriving DecidableEq, Repr

/-- One row of `convert`'s inner loop: `convertedRow` is allocated with one
slot per column converter and filled from the row's cells positionally
(Go leaves slots beyond a short row as `nil`; a row longer than the column
list would panic in Go and is outside the model). -/
def convertRow (converters : List (Cell → Cell)) (row : List Cell) : List Cell :=
  (List.range converters.length).map (fun j =>
    match row.get? j with
    | some v => ((converters.get? j).getD (fun c => c)) v
    | none => Cell.null)

/-- The conversion `convert` performs on the raw document: one converter
per column, applied to every row; the converted map keeps the raw
`columns`. -/
def convertDoc (raw : ResultDoc) : ResultDoc :=
  let converters := raw.columns.map (fun c => getConverter c.colType)
  { columns := raw.columns, rows := raw.rows.map (convertRow converters) }

/-- The `Results` struct: the raw document plus the lazily computed
converted document (`none` until `convert` has run, mirroring the `nil`
map). -/
structure YQResults where
  rawResults : ResultDoc
  results : Option ResultDoc
deriving DecidableEq, Repr

/-- Mirrors `NewYQResults`: wraps a raw document with no conversion done. -/
def NewYQResults (results : ResultDoc) : YQResults :=
  { rawResults := results, results := none }

/-- Mirrors the method `convert`: a no-op when the cache is populated,
otherwise computes and stores the converted document.  Go mutates the
receiver; the model returns the updated state. -/
def convertResults (r : YQResults) : YQResults :=
  match r.results with
  | some _ => r
  | none => { r with results := some (convertDoc r.rawResults) }

/-- Mirrors the accessor `Results()`: run `convert`, then return the cached
converted document (and the updated state).  After `convert` the cache is
always populated, so the `getD` default is never reached. -/
def getResults (r : YQResults) : ResultDoc × YQResults :=
  let r2 := convertResults r
  (r2.results.getD r2.rawResults, r2)

/-- Mirrors the accessor `RawResults()`: the raw document, untouched. -/
def getRawResults (r : YQResults) : ResultDoc :=
  r.rawResults

/-! ### Response validation (`validateHTTPError`) -/

/-- An HTTP response as the validator sees it: the status code, and the
result of decoding the body as a JSON object (`none` when the body is not
parseable JSON). -/
structure HTTPResponse where
  statusCode : Nat
  bodyJSON : Option (List (String × JSONVal))

/-- The `YQError` struct.  The "bare" error Go builds for an unparseable
body leaves `status`/`msg` as empty strings and `details` as `nil`. -/
structure YQError where
  message : String
  status : String
  msg : String
  details : JSONVal

/-- Mirrors `validateHTTPError`: `none` (Go `nil`) when the status code is
the expected one; otherwise a `YQError` built from the decoded JSON body's
`status`/`message`/`details` fields, or a bare status-code error when the
body does not decode. -/
def validateHTTPError (resp : HTTPResponse) (expectedCode : Nat) : Option YQError :=
  if resp.statusCode ≠ expectedCode then
    match resp.bodyJSON with
    | some body =>
      some { message := "Error occurred. http code=" ++ toString resp.statusCode ++
               ", status=" ++ goSprintV (goLookup body "status") ++
               ", msg=" ++ goSprintV (goLookup body "message") ++
               ", details=" ++ goSprintV (goLookup body "details")
           , status := goSprintV (goLookup body "status")
           , msg := goSprintV (goLookup body "message")
           , details := goLookup body "details" }
    | none =>
      some { message := "Error occurred: " ++ toString resp.statusCode
           , status := "", msg := "", details := JSONVal.null }
  else
    none

/-! ### Header and body construction -/

/-- Client configuration after `NewClient` has applied defaults. -/
structure ClientConfig where
  token : String
  project : String
  userAgent : String
  endpoint : String
  webBaseURL : String
  tokenPfx : String
deriving DecidableEq, Repr

/-- Mirrors `NewClient`: fill in the documented default for every empty
optional field, preserve non-empty fields. -/
def NewClient (cfg : ClientConfig) : ClientConfig :=
  { cfg with
    userAgent := if cfg.userAgent = "" then DefaultUserAgent else cfg.userAgent
    endpoint := if cfg.endpoint = "" then DefaultEndpoint else cfg.endpoint
    webBaseURL := if cfg.webBaseURL = "" then DefaultWebBaseURL else cfg.webBaseURL
    tokenPfx := if cfg.tokenPfx = "" then DefaultTokenPrefix else cfg.tokenPfx }

/-- Mirrors `buildHeaders`: always `Authorization`, then the optional
`Idempotency-Key` and `x-request-id`, then `User-Agent` when configured. -/
def buildHeaders (cfg : ClientConfig) (idempotencyKey requestID : String) : List (String × String) :=
  let h0 : List (String × String) := [("Authorization", cfg.tokenPfx ++ cfg.token)]
  let h1 := if idempotencyKey ≠ "" then h0 ++ [("Idempotency-Key", idempotencyKey)] else h0
  let h2 := if requestID ≠ "" then h1 ++ [("x-request-id", requestID)] else h1
  if cfg.userAgent ≠ "" then h2 ++ [("User-Agent", cfg.userAgent)] else h2

/-- Headers `CreateQuery` sends: `buildHeaders` plus `Content-Type`. -/
def createQueryHeaders (cfg : ClientConfig) (idempotencyKey requestID : String) : List (String × String) :=
  buildHeaders cfg idempotencyKey requestID ++ [("Content-Type", "application/json")]

/-- Headers `GetQueryStatus` sends. -/
def getQueryStatusHeaders (cfg : ClientConfig) (requestID : String) : List (String × String) :=
  buildHeaders cfg "" requestID

/-- Headers `GetQuery` sends. -/
def getQueryHeaders (cfg : ClientConfig) (requestID : String) : List (String × String) :=
  buildHeaders cfg "" requestID

/-- Headers `StopQuery` sends. -/
def stopQueryHeaders (cfg : ClientConfig) (idempotencyKey requestID : String) : List (String × String) :=
  buildHeaders cfg idempotencyKey requestID

/-- Headers `GetQueryResultSetPage` sends. -/
def getQueryResultSetPageHeaders (cfg : ClientConfig) (requestID : String) : List (String × String) :=
  buildHeaders cfg "" requestID

/-- Headers `GetOpenAPISpec` sends: the Go code passes a `nil` header map
to `doRequest` and never calls `buildHeaders`, so the request carries no
header at all. -/
def getOpenAPISpecHeaders : List (String × String) :=
  []

/-- Mirrors the body construction in `CreateQuery`: a JSON object holding
exactly the non-empty arguments among text/type/name/description. -/
def buildCreateQueryBody (queryText queryType name description : String) : List (String × String) :=
  let b0 : List (String × String) := []
  let b1 := if queryText ≠ "" then b0 ++ [("text", queryText)] else b0
  let b2 := if queryType ≠ "" then b1 ++ [("type", queryType)] else b1
  let b3 := if name ≠ "" then b2 ++ [("name", name)] else b2
  if description ≠ "" then b3 ++ [("description", description)] else b3

/-! ### The retry loop `doRequest`

The transport (`c.client.Do`) is an oracle mapping the attempt index to
its outcome; the context is an oracle saying whether cancellation fires
during the wait following a given attempt.  One subtlety of the source is
modelled exactly: inside the loop body, `req, err := http.NewRequestWithContext`
declares a fresh block-scoped `err` that shadows the function-scoped `err`
declared before the loop, and `resp, err = c.client.Do(req)` assigns that
inner variable; the function-scoped `err` is therefore never written, and
the final `return nil, err` returns its zero value `nil`.  The model keeps
the function-scoped variable as `outerErr` (threaded unchanged) and drops
the shadowed inner error, exactly as the scoping dictates.
(`http.NewRequestWithContext` itself cannot fail here: the method and URL
are fixed valid literals, so that early return is not modelled.) -/

/-- Outcome of one `c.client.Do` call: a response, or a transport error
(identified by a number so distinct errors are distinguishable). -/
inductive AttemptOutcome : Type where
  | ok (resp : HTTPResponse) : AttemptOutcome
  | transportErr (e : Nat) : AttemptOutcome

/-- What `doRequest` returns: `(resp, nil)`, `(nil, err)` — where the
error may itself be `nil`, see the shadowing note — or the context's
cancellation error. -/
inductive ReqResult : Type where
  | success (resp : HTTPResponse) : ReqResult
  | failure (e : Option Nat) : ReqResult
  | ctxCancelled : ReqResult

/-- A run of `doRequest`: its result, how many attempts were made, and the
completed waits (milliseconds, in order; a wait aborted by cancellation is
not recorded). -/
structure ReqTrace where
  result : ReqResult
  attemptsMade : Nat
  waits : List Nat

/-- The body of `doRequest`'s `for i := 0; i <= MaxRetryForSession; i++`
loop, with explicit fuel (`MaxRetryForSession + 1 - i` at entry).  On a
transport error the loop waits `TimeBetweenRetries * (i+1)` — aborting
with the context error if cancellation fires — and retries; on fuel
exhaustion it returns the never-assigned function-scoped error. -/
def doRequestGo (attempt : Nat → AttemptOutcome) (cancelledDuringWait : Nat → Bool)
    (outerErr : Option Nat) (i : Nat) : Nat → ReqTrace
  | 0 => { result := ReqResult.failure outerErr, attemptsMade := 0, waits := [] }
  | fuel + 1 =>
    match attempt i with
    | AttemptOutcome.ok resp =>
      { result := ReqResult.success resp, attemptsMade := 1, waits := [] }
    | AttemptOutcome.transportErr _e =>
      if cancelledDuringWait i then
        { result := ReqResult.ctxCancelled, attemptsMade := 1, waits := [] }
      else
        let t := doRequestGo attempt cancelledDuringWait outerErr (i + 1) fuel
        { result := t.result, attemptsMade := t.attemptsMade + 1,
          waits := TimeBetweenRetries * (i + 1) :: t.waits }

/-- Mirrors `doRequest`: run the loop from `i = 0` with the function-scoped
error initialised to `nil`. -/
def doRequest (attempt : Nat → AttemptOutcome) (cancelledDuringWait : Nat → Bool) : ReqTrace :=
  doRequestGo attempt cancelledDuringWait none 0 (MaxRetryForSession + 1)

/-! ### The polling loop `WaitQueryToComplete`

`GetQueryStatus` is an oracle mapping the poll number to a status or an
error; the context is an oracle over the inter-poll waits.  Elapsed time
(`time.Since(startTime)`) is the sum of the completed waits, polls being
instantaneous in the model.  The best-effort `StopQuery` issued on timeout
has its own result oracle, which the code discards (`_ =`); the model
threads it as an argument and records only whether the stop call was
issued. -/

/-- Outcome of one `GetQueryStatus` call. -/
inductive PollResult : Type where
  | ok (status : String) : PollResult
  | err (e : Nat) : PollResult

/-- What `WaitQueryToComplete` can return: a terminal status, a propagated
poll error, the timeout error, the context's cancellation error — or
`diverged` when the modelling fuel runs out while Go would keep looping. -/
inductive WaitOutcome : Type where
  | ok (status : String) : WaitOutcome
  | pollErr (e : Nat) : WaitOutcome
  | timeoutErr : WaitOutcome
  | ctxErr : WaitOutcome
  | diverged : WaitOutcome
deriving DecidableEq, Repr

/-- A run of the polling loop: its outcome, the number of status polls
performed, the completed inter-poll delays (ms, in order), and whether the
best-effort `StopQuery` was issued. -/
structure WaitTrace where
  result : WaitOutcome
  polls : Nat
  delays : List Nat
  stopCalled : Bool
deriving DecidableEq, Repr

/-- The body of `WaitQueryToComplete`'s `for` loop.  Each iteration:
check the timeout (only when `executionTimeout > 0`), poll, return any
non-RUNNING/PENDING status, then wait `delay` — aborting on context
cancellation — and double the delay, capping it at 2000 ms. -/
def waitLoop (poll : Nat → PollResult) (cancelledDuringWait : Nat → Bool)
    (stopCallOutcome : Option Nat) (executionTimeout : Nat) (stopOnTimeout : Bool)
    (elapsed delay pollsDone : Nat) : Nat → WaitTrace
  | 0 => { result := WaitOutcome.diverged, polls := pollsDone, delays := [], stopCalled := false }
  | fuel + 1 =>
    if executionTimeout > 0 ∧ elapsed > executionTimeout then
      { result := WaitOutcome.timeoutErr, polls := pollsDone, delays := [],
        stopCalled := stopOnTimeout }
    else
      match poll pollsDone with
      | PollResult.err e =>
        { result := WaitOutcome.pollErr e, polls := pollsDone + 1, delays := [],
          stopCalled := false }
      | PollResult.ok status =>
        if status ≠ "RUNNING" ∧ status ≠ "PENDING" then
          { result := WaitOutcome.ok status, polls := pollsDone + 1, delays := [],
            stopCalled := false }
        else if cancelledDuringWait pollsDone then
          { result := WaitOutcome.ctxErr, polls := pollsDone + 1, delays := [],
            stopCalled := false }
        else
          let t := waitLoop poll cancelledDuringWait stopCallOutcome executionTimeout
            stopOnTimeout (elapsed + delay) (min (delay * 2) 2000) (pollsDone + 1) fuel
          { result := t.result, polls := t.polls, delays := delay :: t.delays,
            stopCalled := t.stopCalled }

/-- Mirrors `WaitQueryToComplete`: start at zero elapsed time with a
200 ms delay. -/
def WaitQueryToComplete (poll : Nat → PollResult) (cancelledDuringWait : Nat → Bool)
    (stopCallOutcome : Option Nat) (executionTimeout : Nat) (stopOnTimeout : Bool)
    (fuel : Nat) : WaitTrace :=
  waitLoop poll cancelledDuringWait stopCallOutcome executionTimeout stopOnTimeout 0 200 0 fuel

/-! ### The pagination loop `GetQueryResultSet`

`GetQueryResultSetPage` is an oracle mapping the requested offset to an
error or a raw page (the page's `columns` entry, and its `rows` entry —
`none` when `rows` is not a JSON array, which trips the
"unexpected rows format" check).  The trace records the offsets actually
requested; every request uses the fixed `limit = 1000`. -/

/-- A raw page as the loop consumes it. -/
structure RawPage where
  columns : JSONVal
  rows : Option (List JSONVal)

/-- Errors of the pagination loop: a propagated page-fetch error, the
"unexpected rows format" error, or fuel exhaustion (Go would keep
looping). -/
inductive RSErr : Type where
  | pageErr (e : Nat) : RSErr
  | rowsFormat : RSErr
  | diverged : RSErr

/-- The body of `GetQueryResultSet`'s `for` loop: fetch the page at the
current offset, take its `columns` if none retained yet (Go
`if columns == nil`), append its rows, stop when the page has a number of
rows different from the limit, else advance the offset by the limit.
Returns the final `(rows, columns)` document and the offsets requested. -/
def getQueryResultSetLoop (fetchPage : Nat → Except Nat RawPage)
    (offset : Nat) (columns : JSONVal) (rowsAcc : List JSONVal) :
    Nat → Except RSErr (List JSONVal × JSONVal) × List Nat
  | 0 => (Except.error RSErr.diverged, [])
  | fuel + 1 =>
    match fetchPage offset with
    | Except.error e => (Except.error (RSErr.pageErr e), [offset])
    | Except.ok part =>
      let columns2 := if columns.isNull then part.columns else columns
      match part.rows with
      | none => (Except.error RSErr.rowsFormat, [offset])
      | some r =>
        let rowsAcc2 := rowsAcc ++ r
        if r.length ≠ 1000 then
          (Except.ok (rowsAcc2, columns2), [offset])
        else
          let t := getQueryResultSetLoop fetchPage (offset + 1000) columns2 rowsAcc2 fuel
          (t.1, offset :: t.2)

/-- Mirrors `GetQueryResultSet`'s loop: start at offset 0 with no columns
retained and no rows accumulated.  (The function then wraps the document
and, when `rawFormat` is false, hands it to the decoder modelled by
`convertDoc`; the pagination behaviour is identical on both branches.) -/
def GetQueryResultSet (fetchPage : Nat → Except Nat RawPage) (fuel : Nat) :
    Except RSErr (List JSONVal × JSONVal) × List Nat :=
  getQueryResultSetLoop fetchPage 0 JSONVal.null [] fuel

/-- Association-list lookup with propositional key comparison, used to state
which keys a header or body map carries. -/
def lookupStr : List (String × String) → String → Option String
  | [], _ => none
  | (k, v) :: rest, key => if k = key then some v else lookupStr rest key

/-! ## Theorems -/

theorem getConverter_String_eq : getConverter "String" = convertFromBase64 := rfl

theorem getConverter_Double_eq : getConverter "Double" = convertFromFloat := rfl

theorem getConverter_Timestamp_eq : getConverter "Timestamp" = convertFromDatetime := rfl

theorem convertFromFloat_str_some (s : String) (f : ℚ) (h : parseGoFloat s = some f) :
    convertFromFloat (Cell.str s) = Cell.num f := by
  simp [convertFromFloat, h]

theorem convertFromFloat_str_none (s : String) (h : parseGoFloat s = none) :
    convertFromFloat (Cell.str s) = Cell.str s := by
  simp [convertFromFloat, h]

theorem convertFromBase64_str_none (s : String) (h : base64Decode s = none) :
    convertFromBase64 (Cell.str s) = Cell.str s := by
  simp [convertFromBase64, h]

theorem convertFromDatetime_str_none (s : String) (h : parseRFC3339 s = none) :
    convertFromDatetime (Cell.str s) = Cell.str s := by
  simp [convertFromDatetime, h]

theorem getConverter_unrecognized (t : String) (ht : t ∉ recognizedTypeNames) :
    getConverter t = fun v => v := by
  rw [getConverter]
  rw [if_neg (fun h => ht (by simp only [recognizedTypeNames, List.mem_append]; exact Or.inl h))]
  rw [if_neg (fun h => ht (by subst h; decide))]
  rw [if_neg (fun h => ht (by rcases h with h | h <;> subst h <;> decide))]
  rw [if_neg (fun h => ht (by rcases h with h | h | h <;> subst h <;> decide))]

/-- C6: the per-column conversion behaves as the type table prescribes:
a String-column cell holding the base64 encoding of "hello" (namely
"aGVsbG8=") converts to "hello"; a Double-column cell holding the string
"3.14" converts to the number 3.14 (the exact rational 157/50 in the
model); a Timestamp-column cell holding "2024-01-01T00:00:00Z" converts to
the corresponding structured date-time value; and for every unrecognized
column type, and for every string cell whose base64 decode, float parse,
or timestamp parse fails, the original cell value is passed through
unchanged. -/
theorem claim_C6_conversion_table :
    (getConverter "String" (Cell.str "aGVsbG8=") = Cell.str "hello") ∧
    (getConverter "Double" (Cell.str "3.14") = Cell.num (157 / 50)) ∧
    (getConverter "Timestamp" (Cell.str "2024-01-01T00:00:00Z") =
      Cell.timeVal { year := 2024, month := 1, day := 1, hour := 0, minute := 0,
                     second := 0, nanos := 0, offsetMinutes := 0 }) ∧
    (∀ t : String, t ∉ recognizedTypeNames → ∀ v : Cell, getConverter t v = v) ∧
    (∀ s : String, base64Decode s = none → getConverter "String" (Cell.str s) = Cell.str s) ∧
    (∀ s : String, parseGoFloat s = none → getConverter "Double" (Cell.str s) = Cell.str s) ∧
    (∀ s : String, parseRFC3339 s = none → getConverter "Timestamp" (Cell.str s) = Cell.str s) := by
  refine ⟨by decide, ?_, by decide, ?_, ?_, ?_, ?_⟩
  · have h2 : parseGoFloat "3.14" = some (decimalToRat (314, 2, 0)) := by
      show (parseUnsignedDecimal "3.14".data).map decimalToRat = _
      rw [show parseUnsignedDecimal "3.14".data = some (314, 2, 0) from by decide]
      rfl
    rw [getConverter_Double_eq, convertFromFloat_str_some _ _ h2]
    norm_num [decimalToRat]
  · intro t ht v
    rw [getConverter_unrecognized t ht]
  · intro s h
    rw [getConverter_String_eq, convertFromBase64_str_none s h]
  · intro s h
    rw [getConverter_Double_eq, convertFromFloat_str_none s h]
  · intro s h
    rw [getConverter_Timestamp_eq, convertFromDatetime_str_none s h]

theorem claim_C6_conversion_table_witness :
    ("Decimal(22,9)" ∉ recognizedTypeNames ∧ base64Decode "%%%%" = none ∧
      parseGoFloat "abc" = none ∧ parseRFC3339 "nope" = none) ∧
    (getConverter "Decimal(22,9)" (Cell.boolVal true) = Cell.boolVal true ∧
      getConverter "String" (Cell.str "%%%%") = Cell.str "%%%%" ∧
      getConverter "Double" (Cell.str "abc") = Cell.str "abc" ∧
      getConverter "Timestamp" (Cell.str "nope") = Cell.str "nope") :=
  ⟨⟨by decide, by decide, by decide, by decide⟩,
    claim_C6_conversion_table.2.2.2.1 _ (by decide) _,
    claim_C6_conversion_table.2.2.2.2.1 _ (by decide),
    claim_C6_conversion_table.2.2.2.2.2.1 _ (by decide),
    claim_C6_conversion_table.2.2.2.2.2.2 _ (by decide)⟩

/-- C7: the conversion is computed at most once per `Results` instance:
every accessor call after the first returns the identical cached converted
document and leaves the state untouched (no recomputation), the raw
document remains retrievable unchanged by any number of conversion calls,
and the cache holds exactly the returned document.  On a fresh instance
the first call returns the converted raw document. -/
theorem claim_C7_results_cached :
    (∀ r : YQResults,
      getResults ((getResults r).2) = ((getResults r).1, (getResults r).2) ∧
      getRawResults ((getResults r).2) = getRawResults r ∧
      ((getResults r).2).results = some ((getResults r).1)) ∧
    (∀ raw : ResultDoc,
      getRawResults (NewYQResults raw) = raw ∧
      (getResults (NewYQResults raw)).1 = convertDoc raw) := by
  constructor
  · intro r
    cases hr : r.results with
    | some d =>
      simp [getResults, getRawResults, convertResults, hr]
    | none =>
      simp [getResults, getRawResults, convertResults, hr]
  · intro raw
    simp [getResults, getRawResults, convertResults, NewYQResults]

/-- C8: for every HTTP response whose status differs from the expected
code, a structured client error is produced: when the body is parseable
JSON with string `status`/`message` fields, the error's status, message
and details equal the body's fields; when the body is not parseable JSON,
a bare status-code error (empty status/message, nil details) is produced;
for a response with the expected status, no error is produced. -/
theorem claim_C8_validate_http_error :
    ∀ (resp : HTTPResponse) (expected : Nat),
      (resp.statusCode = expected → validateHTTPError resp expected = none) ∧
      (resp.statusCode ≠ expected → ∀ body, resp.bodyJSON = some body →
        ∀ st ms : String, goLookup body "status" = JSONVal.str st →
          goLookup body "message" = JSONVal.str ms →
          ∃ e, validateHTTPError resp expected = some e ∧
            e.status = st ∧ e.msg = ms ∧ e.details = goLookup body "details") ∧
      (resp.statusCode ≠ expected → resp.bodyJSON = none →
        validateHTTPError resp expected =
          some { message := "Error occurred: " ++ toString resp.statusCode,
                 status := "", msg := "", details := JSONVal.null }) := by
  intro resp expected
  refine ⟨?_, ?_, ?_⟩
  · intro h
    simp [validateHTTPError, h]
  · intro h body hbody st ms hst hms
    refine ⟨{ message := "Error occurred. http code=" ++ toString resp.statusCode ++
                ", status=" ++ goSprintV (goLookup body "status") ++
                ", msg=" ++ goSprintV (goLookup body "message") ++
                ", details=" ++ goSprintV (goLookup body "details")
            , status := goSprintV (goLookup body "status")
            , msg := goSprintV (goLookup body "message")
            , details := goLookup body "details" }, ?_, ?_, ?_, rfl⟩
    · simp [validateHTTPError, h, hbody]
    · simp [hst, goSprintV]
    · simp [hms, goSprintV]
  · intro h hbody
    simp [validateHTTPError, h, hbody]

theorem claim_C8_validate_http_error_witness :
    ((400 : Nat) ≠ 200 ∧
      goLookup [("status", JSONVal.str "BAD_REQUEST"), ("message", JSONVal.str "x"),
        ("details", JSONVal.null)] "status" = JSONVal.str "BAD_REQUEST" ∧
      goLookup [("status", JSONVal.str "BAD_REQUEST"), ("message", JSONVal.str "x"),
        ("details", JSONVal.null)] "message" = JSONVal.str "x") ∧
    (∃ e, validateHTTPError
        { statusCode := 400,
          bodyJSON := some [("status", JSONVal.str "BAD_REQUEST"),
            ("message", JSONVal.str "x"), ("details", JSONVal.null)] } 200 = some e ∧
      e.status = "BAD_REQUEST" ∧ e.msg = "x" ∧
      e.details = goLookup [("status", JSONVal.str "BAD_REQUEST"),
        ("message", JSONVal.str "x"), ("details", JSONVal.null)] "details") ∧
    validateHTTPError { statusCode := 502, bodyJSON := none } 200 =
      some { message := "Error occurred: " ++ toString 502, status := "", msg := "",
             details := JSONVal.null } ∧
    validateHTTPError { statusCode := 200, bodyJSON := none } 200 = none :=
  ⟨⟨by decide, rfl, rfl⟩,
    (claim_C8_validate_http_error _ 200).2.1 (by decide) _ rfl "BAD_REQUEST" "x" rfl rfl,
    (claim_C8_validate_http_error _ 200).2.2 (by decide) rfl,
    (claim_C8_validate_http_error _ 200).1 rfl⟩

/-- C9: the JSON body built by `CreateQuery` contains exactly the
non-empty arguments among text, type, name, description under those keys:
an empty argument produces no key at all, and when all four are non-empty
all four keys appear (and no other key ever appears). -/
theorem claim_C9_create_query_body :
    ∀ queryText queryType name description : String,
      lookupStr (buildCreateQueryBody queryText queryType name description) "text"
          = (if queryText = "" then none else some queryText) ∧
      lookupStr (buildCreateQueryBody queryText queryType name description) "type"
          = (if queryType = "" then none else some queryType) ∧
      lookupStr (buildCreateQueryBody queryText queryType name description) "name"
          = (if name = "" then none else some name) ∧
      lookupStr (buildCreateQueryBody queryText queryType name description) "description"
          = (if description = "" then none else some description) ∧
      (∀ k, k ≠ "text" → k ≠ "type" → k ≠ "name" → k ≠ "description" →
        lookupStr (buildCreateQueryBody queryText queryType name description) k = none) ∧
      (queryText ≠ "" → queryType ≠ "" → name ≠ "" → description ≠ "" →
        (buildCreateQueryBody queryText queryType name description).map Prod.fst
          = ["text", "type", "name", "description"]) := by
  intro queryText queryType name description
  simp only [buildCreateQueryBody]
  refine ⟨?_, ?_, ?_, ?_, ?_, ?_⟩
  · split_ifs <;> simp_all [lookupStr]
  · split_ifs <;> simp_all [lookupStr]
  · split_ifs <;> simp_all [lookupStr]
  · split_ifs <;> simp_all [lookupStr]
  · intro k hk1 hk2 hk3 hk4
    have hk1s : "text" ≠ k := Ne.symm hk1
    have hk2s : "type" ≠ k := Ne.symm hk2
    have hk3s : "name" ≠ k := Ne.symm hk3
    have hk4s : "description" ≠ k := Ne.symm hk4
    split_ifs <;> simp_all [lookupStr]
  · intro g1 g2 g3 g4
    simp_all

theorem claim_C9_create_query_body_witness :
    (("q" : String) ≠ "" ∧ ("t" : String) ≠ "" ∧ ("n" : String) ≠ "" ∧ ("d" : String) ≠ "" ∧
      ("limit" : String) ≠ "text" ∧ ("limit" : String) ≠ "type" ∧
      ("limit" : String) ≠ "name" ∧ ("limit" : String) ≠ "description") ∧
    (buildCreateQueryBody "q" "t" "n" "d").map Prod.fst =
      ["text", "type", "name", "description"] ∧
    lookupStr (buildCreateQueryBody "q" "t" "n" "d") "limit" = none ∧
    lookupStr (buildCreateQueryBody "q" "" "n" "") "type" = none ∧
    lookupStr (buildCreateQueryBody "q" "" "n" "") "name" = some "n" :=
  ⟨⟨by decide, by decide, by decide, by decide, by decide, by decide, by decide, by decide⟩,
    (claim_C9_create_query_body "q" "t" "n" "d").2.2.2.2.2
      (by decide) (by decide) (by decide) (by decide),
    (claim_C9_create_query_body "q" "t" "n" "d").2.2.2.2.1 "limit"
      (by decide) (by decide) (by decide) (by decide),
    by
      have h := (claim_C9_create_query_body "q" "" "n" "").2.1
      simpa using h,
    by
      have h := (claim_C9_create_query_body "q" "" "n" "").2.2.1
      simpa using h⟩

theorem lookupStr_buildHeaders_auth (cfg : ClientConfig) (idempotencyKey requestID : String) :
    lookupStr (buildHeaders cfg idempotencyKey requestID) "Authorization"
      = some (cfg.tokenPfx ++ cfg.token) := by
  simp only [buildHeaders]
  split_ifs <;> simp [lookupStr]

/-- C10: `GetOpenAPISpec` is the only operation that sends its request
with no headers whatsoever — its header map is empty, so it carries no
`Authorization` (the credential token is never sent), no `User-Agent`, and
no other header — while every other request-building operation
(`CreateQuery`, `GetQueryStatus`, `GetQuery`, `StopQuery`,
`GetQueryResultSetPage`) goes through `buildHeaders` and always carries
the `Authorization` header `tokenPrefix ++ token`. -/
theorem claim_C10_openapi_no_headers :
    getOpenAPISpecHeaders = [] ∧
    (∀ k, lookupStr getOpenAPISpecHeaders k = none) ∧
    (∀ cfg ik rid, lookupStr (createQueryHeaders cfg ik rid) "Authorization"
      = some (cfg.tokenPfx ++ cfg.token)) ∧
    (∀ cfg rid, lookupStr (getQueryStatusHeaders cfg rid) "Authorization"
      = some (cfg.tokenPfx ++ cfg.token)) ∧
    (∀ cfg rid, lookupStr (getQueryHeaders cfg rid) "Authorization"
      = some (cfg.tokenPfx ++ cfg.token)) ∧
    (∀ cfg ik rid, lookupStr (stopQueryHeaders cfg ik rid) "Authorization"
      = some (cfg.tokenPfx ++ cfg.token)) ∧
    (∀ cfg rid, lookupStr (getQueryResultSetPageHeaders cfg rid) "Authorization"
      = some (cfg.tokenPfx ++ cfg.token)) := by
  refine ⟨rfl, fun k => rfl, fun cfg ik rid => ?_, fun cfg rid => ?_, fun cfg rid => ?_,
    fun cfg ik rid => ?_, fun cfg rid => ?_⟩
  · simp only [createQueryHeaders, buildHeaders]
    split_ifs <;> simp [lookupStr]
  · exact lookupStr_buildHeaders_auth cfg "" rid
  · exact lookupStr_buildHeaders_auth cfg "" rid
  · exact lookupStr_buildHeaders_auth cfg ik rid
  · exact lookupStr_buildHeaders_auth cfg "" rid

theorem doRequestGo_allFail_result (attempt : Nat → AttemptOutcome) (cancelled : Nat → Bool)
    (o : Option Nat)
    (hfail : ∀ i, ∃ e, attempt i = AttemptOutcome.transportErr e)
    (hc : ∀ i, cancelled i = false) :
    ∀ fuel i, (doRequestGo attempt cancelled o i fuel).result = ReqResult.failure o := by
  intro fuel
  induction fuel with
  | zero => intro i; rfl
  | succ f ih =>
    intro i
    obtain ⟨e, he⟩ := hfail i
    simp [doRequestGo, he, hc i, ih]

theorem doRequestGo_attempts_le (attempt : Nat → AttemptOutcome) (cancelled : Nat → Bool)
    (o : Option Nat) :
    ∀ fuel i, (doRequestGo attempt cancelled o i fuel).attemptsMade ≤ fuel := by
  intro fuel
  induction fuel with
  | zero => intro i; exact Nat.le_refl 0
  | succ f ih =>
    intro i
    cases ha : attempt i with
    | ok resp =>
      rw [doRequestGo]
      simp only [ha]
      omega
    | transportErr e =>
      rw [doRequestGo]
      simp only [ha]
      split
      · simp
      · have := ih (i + 1)
        simp
        omega

theorem doRequestGo_success (attempt : Nat → AttemptOutcome) (cancelled : Nat → Bool)
    (o : Option Nat) (resp : HTTPResponse) :
    ∀ k fuel i,
      (∀ j, j < k → (∃ e, attempt (i + j) = AttemptOutcome.transportErr e) ∧ cancelled (i + j) = false) →
      attempt (i + k) = AttemptOutcome.ok resp → k < fuel →
      (doRequestGo attempt cancelled o i fuel).result = ReqResult.success resp ∧
      (doRequestGo attempt cancelled o i fuel).attemptsMade = k + 1 := by
  intro k
  induction k with
  | zero =>
    intro fuel i hpre hk hf
    obtain ⟨f, rfl⟩ : ∃ f, fuel = f + 1 := ⟨fuel - 1, by omega⟩
    rw [show i + 0 = i from rfl] at hk
    simp [doRequestGo, hk]
  | succ m ih =>
    intro fuel i hpre hk hf
    obtain ⟨f, rfl⟩ : ∃ f, fuel = f + 1 := ⟨fuel - 1, by omega⟩
    obtain ⟨⟨e, he⟩, hc0⟩ := hpre 0 (by omega)
    rw [show i + 0 = i from rfl] at he hc0
    have harg : ∀ j, j < m →
        (∃ e2, attempt (i + 1 + j) = AttemptOutcome.transportErr e2) ∧ cancelled (i + 1 + j) = false := by
      intro j hj
      have h := hpre (j + 1) (by omega)
      rw [show i + (j + 1) = i + 1 + j from by omega] at h
      exact h
    have hk2 : attempt (i + 1 + m) = AttemptOutcome.ok resp := by
      rw [show i + 1 + m = i + (m + 1) from by omega]
      exact hk
    have h1 := ih f (i + 1) harg hk2 (by omega)
    simp [doRequestGo, he, hc0, h1.1, h1.2]

theorem doRequestGo_cancelled_result (attempt : Nat → AttemptOutcome) (cancelled : Nat → Bool)
    (o : Option Nat) :
    ∀ k fuel i,
      (∀ j, j < k → (∃ e, attempt (i + j) = AttemptOutcome.transportErr e) ∧ cancelled (i + j) = false) →
      (∃ e, attempt (i + k) = AttemptOutcome.transportErr e) → cancelled (i + k) = true → k < fuel →
      (doRequestGo attempt cancelled o i fuel).result = ReqResult.ctxCancelled := by
  intro k
  induction k with
  | zero =>
    intro fuel i hpre hk hcc hf
    obtain ⟨f, rfl⟩ : ∃ f, fuel = f + 1 := ⟨fuel - 1, by omega⟩
    obtain ⟨e, he⟩ := hk
    rw [show i + 0 = i from rfl] at he hcc
    simp [doRequestGo, he, hcc]
  | succ m ih =>
    intro fuel i hpre hk hcc hf
    obtain ⟨f, rfl⟩ : ∃ f, fuel = f + 1 := ⟨fuel - 1, by omega⟩
    obtain ⟨⟨e, he⟩, hc0⟩ := hpre 0 (by omega)
    rw [show i + 0 = i from rfl] at he hc0
    have harg : ∀ j, j < m →
        (∃ e2, attempt (i + 1 + j) = AttemptOutcome.transportErr e2) ∧ cancelled (i + 1 + j) = false := by
      intro j hj
      have h := hpre (j + 1) (by omega)
      rw [show i + (j + 1) = i + 1 + j from by omega] at h
      exact h
    have hk2 : ∃ e2, attempt (i + 1 + m) = AttemptOutcome.transportErr e2 := by
      rw [show i + 1 + m = i + (m + 1) from by omega]
      exact hk
    have hcc2 : cancelled (i + 1 + m) = true := by
      rw [show i + 1 + m = i + (m + 1) from by omega]
      exact hcc
    have h1 := ih f (i + 1) harg hk2 hcc2 (by omega)
    simp [doRequestGo, he, hc0, h1]

theorem doRequestGo_waits_value (attempt : Nat → AttemptOutcome) (cancelled : Nat → Bool)
    (o : Option Nat) :
    ∀ fuel i j w, ((doRequestGo attempt cancelled o i fuel).waits)[j]? = some w →
      w = 1000 * (i + j + 1) := by
  intro fuel
  induction fuel with
  | zero => intro i j w h; simp [doRequestGo] at h
  | succ f ih =>
    intro i j w h
    cases ha : attempt i with
    | ok resp => rw [doRequestGo] at h; simp [ha] at h
    | transportErr e =>
      rw [doRequestGo] at h
      simp only [ha] at h
      by_cases hcc : cancelled i = true
      · simp [hcc] at h
      · rw [if_neg hcc] at h
        simp only [TimeBetweenRetries] at h
        cases j with
        | zero =>
          simp at h
          omega
        | succ m =>
          simp at h
          have := ih (i + 1) m w h
          omega

theorem doRequest_allFail_trace (attempt : Nat → AttemptOutcome) (cancelled : Nat → Bool)
    (hfail : ∀ i, ∃ e, attempt i = AttemptOutcome.transportErr e)
    (hc : ∀ i, cancelled i = false) :
    (doRequest attempt cancelled).attemptsMade = MaxRetryForSession + 1 ∧
    (doRequest attempt cancelled).waits = [1000, 2000, 3000, 4000, 5000] := by
  obtain ⟨e0, h0⟩ := hfail 0
  obtain ⟨e1, h1⟩ := hfail 1
  obtain ⟨e2, h2⟩ := hfail 2
  obtain ⟨e3, h3⟩ := hfail 3
  obtain ⟨e4, h4⟩ := hfail 4
  simp [doRequest, MaxRetryForSession, TimeBetweenRetries, doRequestGo,
    h0, h1, h2, h3, h4, hc 0, hc 1, hc 2, hc 3, hc 4]

/-- C1 concerns the claim that, when every attempt fails with a transport
error, `doRequest` returns the transport error of the last failed attempt
(a non-nil error).  The code does not: the `req, err :=` short declaration
inside the loop shadows the function-scoped `err`, `resp, err = c.client.Do`
assigns the shadowed inner variable, and after exhausting all
`MaxRetryForSession + 1` attempts the function returns the never-assigned
outer `err`, i.e. a nil error together with a nil response.  This theorem
evaluates the model on the claim's scenario and shows the returned error
is nil (`failure none`), never the last transport error. -/
theorem claim_C1_doRequest_exhausted_error (attempt : Nat → AttemptOutcome)
    (cancelled : Nat → Bool)
    (hfail : ∀ i, ∃ e, attempt i = AttemptOutcome.transportErr e)
    (hc : ∀ i, cancelled i = false) :
    (doRequest attempt cancelled).result = ReqResult.failure none ∧
    ∀ e : Nat, (doRequest attempt cancelled).result ≠ ReqResult.failure (some e) := by
  have h := doRequestGo_allFail_result attempt cancelled none hfail hc (MaxRetryForSession + 1) 0
  refine ⟨h, fun e hne => ?_⟩
  rw [doRequest] at hne
  rw [h] at hne
  cases hne

theorem claim_C1_doRequest_exhausted_error_witness :
    (doRequest (fun i => AttemptOutcome.transportErr i) (fun _ => false)).result
      = ReqResult.failure none :=
  (claim_C1_doRequest_exhausted_error (fun i => AttemptOutcome.transportErr i) (fun _ => false)
    (fun i => ⟨i, rfl⟩) (fun _ => rfl)).1

/-- C2: `doRequest` retries only on transport-level failure: any attempt
that yields an HTTP response is returned immediately regardless of its
status code (the response is never inspected, so an HTTP error status is
never retried); at most `MaxRetryForSession + 1 = 5` attempts are made;
every completed wait after attempt `j` (0-based) lasts
`TimeBetweenRetries * (j+1)` milliseconds, so the waits separating
consecutive attempts are 1s, 2s, 3s, 4s (the full-failure trace also shows
a final 5s wait after the last attempt, which separates no attempts); and
if the context is cancelled during a wait the loop aborts with the
context's cancellation error. -/
theorem claim_C2_doRequest_retry_policy :
    (∀ attempt cancelled, (doRequest attempt cancelled).attemptsMade ≤ MaxRetryForSession + 1) ∧
    (∀ attempt cancelled k resp,
      (∀ j, j < k → (∃ e, attempt j = AttemptOutcome.transportErr e) ∧ cancelled j = false) →
      attempt k = AttemptOutcome.ok resp → k ≤ MaxRetryForSession →
      (doRequest attempt cancelled).result = ReqResult.success resp ∧
      (doRequest attempt cancelled).attemptsMade = k + 1) ∧
    (∀ attempt cancelled j w, ((doRequest attempt cancelled).waits)[j]? = some w →
      w = TimeBetweenRetries * (j + 1)) ∧
    (∀ attempt cancelled k,
      (∀ j, j < k → (∃ e, attempt j = AttemptOutcome.transportErr e) ∧ cancelled j = false) →
      (∃ e, attempt k = AttemptOutcome.transportErr e) → cancelled k = true →
      k ≤ MaxRetryForSession →
      (doRequest attempt cancelled).result = ReqResult.ctxCancelled) ∧
    (∀ attempt cancelled,
      (∀ i, ∃ e, attempt i = AttemptOutcome.transportErr e) → (∀ i, cancelled i = false) →
      (doRequest attempt cancelled).attemptsMade = MaxRetryForSession + 1 ∧
      (doRequest attempt cancelled).waits = [1000, 2000, 3000, 4000, 5000]) := by
  refine ⟨?_, ?_, ?_, ?_, ?_⟩
  · intro attempt cancelled
    exact doRequestGo_attempts_le attempt cancelled none (MaxRetryForSession + 1) 0
  · intro attempt cancelled k resp hpre hk hkle
    exact doRequestGo_success attempt cancelled none resp k (MaxRetryForSession + 1) 0
      (fun j hj => by simpa using hpre j hj) (by simpa using hk) (by omega)
  · intro attempt cancelled j w h
    have := doRequestGo_waits_value attempt cancelled none (MaxRetryForSession + 1) 0 j w h
    simp only [TimeBetweenRetries]
    omega
  · intro attempt cancelled k hpre hk hcc hkle
    exact doRequestGo_cancelled_result attempt cancelled none k (MaxRetryForSession + 1) 0
      (fun j hj => by simpa using hpre j hj) (by simpa using hk) (by simpa using hcc) (by omega)
  · intro attempt cancelled hfail hc
    exact doRequest_allFail_trace attempt cancelled hfail hc

theorem claim_C2_doRequest_retry_policy_witness :
    ((∀ j, j < 1 → (∃ e, (fun i => if i = 0 then AttemptOutcome.transportErr 7
        else AttemptOutcome.ok { statusCode := 503, bodyJSON := none }) j
          = AttemptOutcome.transportErr e) ∧ (fun _ => false) j = false) ∧
      (1 : Nat) ≤ MaxRetryForSession) ∧
    (doRequest (fun i => if i = 0 then AttemptOutcome.transportErr 7
        else AttemptOutcome.ok { statusCode := 503, bodyJSON := none }) (fun _ => false)).result
      = ReqResult.success { statusCode := 503, bodyJSON := none } ∧
    (doRequest (fun i => if i = 0 then AttemptOutcome.transportErr 7
        else AttemptOutcome.ok { statusCode := 503, bodyJSON := none }) (fun _ => false)).attemptsMade
      = 2 ∧
    (doRequest (fun _ => AttemptOutcome.transportErr 9) (fun i => decide (i = 2))).result
      = ReqResult.ctxCancelled ∧
    (doRequest (fun i => AttemptOutcome.transportErr i) (fun _ => false)).waits
      = [1000, 2000, 3000, 4000, 5000] := by
  have h2 := claim_C2_doRequest_retry_policy.2.1
    (fun i => if i = 0 then AttemptOutcome.transportErr 7
      else AttemptOutcome.ok { statusCode := 503, bodyJSON := none }) (fun _ => false)
    1 { statusCode := 503, bodyJSON := none }
    (fun j hj => by
      have hj0 : j = 0 := by omega
      subst hj0
      exact ⟨⟨7, rfl⟩, rfl⟩)
    rfl (by decide)
  have h4 := claim_C2_doRequest_retry_policy.2.2.2.1
    (fun _ => AttemptOutcome.transportErr 9) (fun i => decide (i = 2)) 2
    (fun j hj => ⟨⟨9, rfl⟩, by simp; omega⟩)
    ⟨9, rfl⟩ (by decide) (by decide)
  have h5 := claim_C2_doRequest_retry_policy.2.2.2.2
    (fun i => AttemptOutcome.transportErr i) (fun _ => false)
    (fun i => ⟨i, rfl⟩) (fun _ => rfl)
  exact ⟨⟨fun j hj => by
      have hj0 : j = 0 := by omega
      subst hj0
      exact ⟨⟨7, rfl⟩, rfl⟩, by decide⟩, h2.1, h2.2, h4, h5.2⟩

theorem waitLoop_no_timeout_when_unbounded (poll : Nat → PollResult) (cancelled : Nat → Bool)
    (s : Option Nat) (b : Bool) :
    ∀ fuel elapsed delay pollsDone,
      (waitLoop poll cancelled s 0 b elapsed delay pollsDone fuel).result
        ≠ WaitOutcome.timeoutErr := by
  intro fuel
  induction fuel with
  | zero => intro e d p h; simp [waitLoop] at h
  | succ f ih =>
    intro e d p h
    rw [waitLoop, if_neg (by omega)] at h
    cases hp : poll p with
    | err e2 => simp [hp] at h
    | ok status =>
      simp only [hp] at h
      by_cases ht : status ≠ "RUNNING" ∧ status ≠ "PENDING"
      · rw [if_pos ht] at h
        simp at h
      · rw [if_neg ht] at h
        by_cases hcc : cancelled p = true
        · rw [if_pos hcc] at h
          simp at h
        · rw [if_neg hcc] at h
          exact ih (e + d) (min (d * 2) 2000) (p + 1) h

theorem waitLoop_stopCalled_iff (poll : Nat → PollResult) (cancelled : Nat → Bool)
    (s : Option Nat) (et : Nat) (b : Bool) :
    ∀ fuel elapsed delay pollsDone,
      ((waitLoop poll cancelled s et b elapsed delay pollsDone fuel).stopCalled = true ↔
        ((waitLoop poll cancelled s et b elapsed delay pollsDone fuel).result
          = WaitOutcome.timeoutErr ∧ b = true)) := by
  intro fuel
  induction fuel with
  | zero => intro e d p; simp [waitLoop]
  | succ f ih =>
    intro e d p
    rw [waitLoop]
    by_cases hto : et > 0 ∧ e > et
    · rw [if_pos hto]
      simp
    · rw [if_neg hto]
      split
      · simp
      · split_ifs with ht hcc
        · simp
        · simp
        · simpa using ih (e + d) (min (d * 2) 2000) (p + 1)

theorem waitLoop_stop_outcome_ignored (poll : Nat → PollResult) (cancelled : Nat → Bool)
    (s1 s2 : Option Nat) (et : Nat) (b : Bool) :
    ∀ fuel elapsed delay pollsDone,
      waitLoop poll cancelled s1 et b elapsed delay pollsDone fuel =
        waitLoop poll cancelled s2 et b elapsed delay pollsDone fuel := by
  intro fuel
  induction fuel with
  | zero => intro e d p; rfl
  | succ f ih =>
    intro e d p
    rw [waitLoop, waitLoop]
    by_cases hto : et > 0 ∧ e > et
    · rw [if_pos hto, if_pos hto]
    · rw [if_neg hto, if_neg hto]
      split
      · rfl
      · split_ifs with ht hcc
        · rfl
        · rfl
        · rw [ih (e + d) (min (d * 2) 2000) (p + 1)]

theorem waitLoop_timeout_fires (poll : Nat → PollResult) (cancelled : Nat → Bool)
    (s : Option Nat) (et : Nat) (b : Bool)
    (hRP : ∀ k, poll k = PollResult.ok "RUNNING" ∨ poll k = PollResult.ok "PENDING")
    (hc : ∀ k, cancelled k = false) (het : 0 < et) :
    ∀ fuel elapsed delay pollsDone, 200 ≤ delay → et < 200 * fuel + elapsed →
      (waitLoop poll cancelled s et b elapsed delay pollsDone (fuel + 1)).result
        = WaitOutcome.timeoutErr ∧
      (waitLoop poll cancelled s et b elapsed delay pollsDone (fuel + 1)).stopCalled = b := by
  intro fuel
  induction fuel with
  | zero =>
    intro e d p hd hlt
    rw [waitLoop, if_pos ⟨het, by omega⟩]
    exact ⟨rfl, rfl⟩
  | succ f ih =>
    intro e d p hd hlt
    by_cases hto : e > et
    · rw [waitLoop, if_pos ⟨het, hto⟩]
      exact ⟨rfl, rfl⟩
    · rw [waitLoop, if_neg (fun hh => hto hh.2)]
      have hh := ih (e + d) (min (d * 2) 2000) (p + 1) (by omega) (by omega)
      rcases hRP p with hp | hp <;>
        simp only [hp] <;>
        rw [if_neg (by simp), if_neg (by simp [hc p])] <;>
        exact ⟨hh.1, hh.2⟩

theorem delay_chain (d j : Nat) :
    min (min (d * 2) 2000 * 2 ^ j) 2000 = min (d * 2 ^ (j + 1)) 2000 := by
  have h2 : d * 2 ^ (j + 1) = d * 2 * 2 ^ j := by ring
  rcases Nat.le_total (d * 2) 2000 with h | h
  · rw [Nat.min_eq_left h, h2]
  · have hp : 0 < 2 ^ j := Nat.pos_pow_of_pos j (by norm_num)
    have h3 : 2000 ≤ 2000 * 2 ^ j := Nat.le_mul_of_pos_right 2000 hp
    have h4 : 2000 * 2 ^ j ≤ d * 2 * 2 ^ j := Nat.mul_le_mul_right _ h
    have h5 : 2000 ≤ d * 2 ^ (j + 1) := h2 ▸ le_trans h3 h4
    have h6 : 2000 ≤ min (d * 2) 2000 * 2 ^ j := by
      rw [Nat.min_eq_right h]
      exact h3
    rw [Nat.min_eq_right h6, Nat.min_eq_right h5]

theorem delays_cons (d m : Nat) (hd : d ≤ 2000) :
    d :: (List.range m).map (fun j => min (min (d * 2) 2000 * 2 ^ j) 2000) =
      (List.range (m + 1)).map (fun j => min (d * 2 ^ j) 2000) := by
  rw [List.range_succ_eq_map, List.map_cons, List.map_map]
  congr 1
  · simp [Nat.min_eq_left hd]
  · refine List.map_congr_left fun j hj => ?_
    simpa [Function.comp] using delay_chain d j

theorem waitLoop_first_terminal (poll : Nat → PollResult) (cancelled : Nat → Bool)
    (s : Option Nat) (b : Bool) (status : String)
    (hs1 : status ≠ "RUNNING") (hs2 : status ≠ "PENDING") :
    ∀ n pollsDone delay elapsed fuel,
      (∀ j, j < n → poll (pollsDone + j) = PollResult.ok "RUNNING" ∨
        poll (pollsDone + j) = PollResult.ok "PENDING") →
      (∀ j, j < n → cancelled (pollsDone + j) = false) →
      poll (pollsDone + n) = PollResult.ok status →
      delay ≤ 2000 → n < fuel →
      waitLoop poll cancelled s 0 b elapsed delay pollsDone fuel =
        { result := WaitOutcome.ok status, polls := pollsDone + n + 1,
          delays := (List.range n).map (fun j => min (delay * 2 ^ j) 2000),
          stopCalled := false } := by
  intro n
  induction n with
  | zero =>
    intro p d e fuel hRP hc hterm hd hf
    obtain ⟨f, rfl⟩ : ∃ f, fuel = f + 1 := ⟨fuel - 1, by omega⟩
    rw [waitLoop, if_neg (by omega)]
    rw [show p + 0 = p from rfl] at hterm
    simp only [hterm]
    rw [if_pos ⟨hs1, hs2⟩]
    simp
  | succ m ih =>
    intro p d e fuel hRP hc hterm hd hf
    obtain ⟨f, rfl⟩ : ∃ f, fuel = f + 1 := ⟨fuel - 1, by omega⟩
    rw [waitLoop, if_neg (by omega)]
    have h0 := hRP 0 (by omega)
    rw [show p + 0 = p from rfl] at h0
    have hc0 := hc 0 (by omega)
    rw [show p + 0 = p from rfl] at hc0
    have hrec := ih (p + 1) (min (d * 2) 2000) (e + d) f
      (fun j hj => by
        have h := hRP (j + 1) (by omega)
        rwa [show p + (j + 1) = p + 1 + j from by omega] at h)
      (fun j hj => by
        have h := hc (j + 1) (by omega)
        rwa [show p + (j + 1) = p + 1 + j from by omega] at h)
      (by rwa [show p + 1 + m = p + (m + 1) from by omega])
      (by omega) (by omega)
    rcases h0 with hp | hp <;>
      simp only [hp] <;>
      rw [if_neg (by simp), if_neg (by simp [hc0]), hrec] <;>
      · simp only [WaitTrace.mk.injEq, delays_cons d m hd, and_true, true_and]
        all_goals omega

/-- C3: for every positive `executionTimeout`, when `WaitQueryToComplete`
observes that the timeout has elapsed before any terminal status (here: the
polled status never leaves RUNNING/PENDING, no poll error, no
cancellation), it fails with the timeout error; the best-effort `StopQuery`
is issued exactly when the result is the timeout error and `stopOnTimeout`
is true, and the outcome of that stop call is discarded (the whole trace is
independent of it); an `executionTimeout` of zero means unbounded waiting:
the timeout branch is never taken. -/
theorem claim_C3_wait_timeout_behavior :
    (∀ poll cancelled stopOutcome stopOnTimeout fuel,
      (WaitQueryToComplete poll cancelled stopOutcome 0 stopOnTimeout fuel).result
        ≠ WaitOutcome.timeoutErr) ∧
    (∀ poll cancelled stopOutcome executionTimeout stopOnTimeout fuel,
      ((WaitQueryToComplete poll cancelled stopOutcome executionTimeout stopOnTimeout
          fuel).stopCalled = true ↔
        ((WaitQueryToComplete poll cancelled stopOutcome executionTimeout stopOnTimeout
            fuel).result = WaitOutcome.timeoutErr ∧ stopOnTimeout = true))) ∧
    (∀ poll cancelled s1 s2 executionTimeout stopOnTimeout fuel,
      WaitQueryToComplete poll cancelled s1 executionTimeout stopOnTimeout fuel =
        WaitQueryToComplete poll cancelled s2 executionTimeout stopOnTimeout fuel) ∧
    (∀ poll cancelled stopOutcome executionTimeout stopOnTimeout,
      0 < executionTimeout →
      (∀ k, poll k = PollResult.ok "RUNNING" ∨ poll k = PollResult.ok "PENDING") →
      (∀ k, cancelled k = false) →
      (WaitQueryToComplete poll cancelled stopOutcome executionTimeout stopOnTimeout
          (executionTimeout + 1)).result = WaitOutcome.timeoutErr ∧
      (WaitQueryToComplete poll cancelled stopOutcome executionTimeout stopOnTimeout
          (executionTimeout + 1)).stopCalled = stopOnTimeout) := by
  refine ⟨?_, ?_, ?_, ?_⟩
  · intro poll cancelled s b fuel
    exact waitLoop_no_timeout_when_unbounded poll cancelled s b fuel 0 200 0
  · intro poll cancelled s et b fuel
    exact waitLoop_stopCalled_iff poll cancelled s et b fuel 0 200 0
  · intro poll cancelled s1 s2 et b fuel
    exact waitLoop_stop_outcome_ignored poll cancelled s1 s2 et b fuel 0 200 0
  · intro poll cancelled s et b het hRP hc
    exact waitLoop_timeout_fires poll cancelled s et b hRP hc het et 0 200 0
      (by omega) (by omega)

theorem claim_C3_wait_timeout_behavior_witness :
    ((0 : Nat) < 1 ∧
      (∀ k : Nat, (fun _ : Nat => PollResult.ok "RUNNING") k = PollResult.ok "RUNNING" ∨
        (fun _ : Nat => PollResult.ok "RUNNING") k = PollResult.ok "PENDING") ∧
      (∀ k : Nat, (fun _ : Nat => false) k = false)) ∧
    (WaitQueryToComplete (fun _ => PollResult.ok "RUNNING") (fun _ => false)
        (some 3) 1 true 2).result = WaitOutcome.timeoutErr ∧
    (WaitQueryToComplete (fun _ => PollResult.ok "RUNNING") (fun _ => false)
        (some 3) 1 true 2).stopCalled = true ∧
    (WaitQueryToComplete (fun _ => PollResult.ok "RUNNING") (fun _ => false)
        (some 3) 1 false 2).stopCalled = false ∧
    (WaitQueryToComplete (fun _ => PollResult.ok "RUNNING") (fun _ => false)
        none 0 true 5).result ≠ WaitOutcome.timeoutErr := by
  have h4 := claim_C3_wait_timeout_behavior.2.2.2 (fun _ => PollResult.ok "RUNNING")
    (fun _ => false) (some 3) 1 true (by decide) (fun _ => Or.inl rfl) (fun _ => rfl)
  have h4b := claim_C3_wait_timeout_behavior.2.2.2 (fun _ => PollResult.ok "RUNNING")
    (fun _ => false) (some 3) 1 false (by decide) (fun _ => Or.inl rfl) (fun _ => rfl)
  have h1 := claim_C3_wait_timeout_behavior.1 (fun _ => PollResult.ok "RUNNING")
    (fun _ => false) none true 5
  exact ⟨⟨by decide, fun _ => Or.inl rfl, fun _ => rfl⟩, h4.1, h4.2, h4b.2, h1⟩

/-- C4: `WaitQueryToComplete` returns the first polled status that is
neither RUNNING nor PENDING and polls exactly once per status up to and
including that one (`polls = n + 1` when the terminal status is the
`n`-th, 0-based); the completed inter-poll delays start at 200 ms and
double after each poll, capped at 2000 ms (`min (200 * 2^j) 2000`, i.e.
200, 400, 800, 1600, 2000, 2000, ...). -/
theorem claim_C4_wait_first_terminal :
    ∀ (poll : Nat → PollResult) (cancelled : Nat → Bool) (stopOutcome : Option Nat)
      (stopOnTimeout : Bool) (n : Nat) (status : String) (fuel : Nat),
      (∀ j, j < n → poll j = PollResult.ok "RUNNING" ∨ poll j = PollResult.ok "PENDING") →
      (∀ j, j < n → cancelled j = false) →
      poll n = PollResult.ok status →
      status ≠ "RUNNING" → status ≠ "PENDING" → n < fuel →
      WaitQueryToComplete poll cancelled stopOutcome 0 stopOnTimeout fuel =
        { result := WaitOutcome.ok status, polls := n + 1,
          delays := (List.range n).map (fun j => min (200 * 2 ^ j) 2000),
          stopCalled := false } := by
  intro poll cancelled s b n status fuel hRP hc hterm hs1 hs2 hf
  have h := waitLoop_first_terminal poll cancelled s b status hs1 hs2 n 0 200 0 fuel
    (fun j hj => by simpa using hRP j hj)
    (fun j hj => by simpa using hc j hj)
    (by simpa using hterm) (by omega) hf
  simpa [WaitQueryToComplete] using h

theorem claim_C4_wait_first_terminal_witness :
    ((∀ j, j < 2 →
        (fun k => if k < 2 then PollResult.ok "RUNNING" else PollResult.ok "COMPLETED") j
          = PollResult.ok "RUNNING" ∨
        (fun k => if k < 2 then PollResult.ok "RUNNING" else PollResult.ok "COMPLETED") j
          = PollResult.ok "PENDING") ∧
      (fun k => if k < 2 then PollResult.ok "RUNNING" else PollResult.ok "COMPLETED") 2
        = PollResult.ok "COMPLETED" ∧
      ("COMPLETED" : String) ≠ "RUNNING" ∧ ("COMPLETED" : String) ≠ "PENDING" ∧ 2 < 3) ∧
    WaitQueryToComplete
        (fun k => if k < 2 then PollResult.ok "RUNNING" else PollResult.ok "COMPLETED")
        (fun _ => false) none 0 false 3 =
      { result := WaitOutcome.ok "COMPLETED", polls := 3, delays := [200, 400],
        stopCalled := false } := by
  have h := claim_C4_wait_first_terminal
    (fun k => if k < 2 then PollResult.ok "RUNNING" else PollResult.ok "COMPLETED")
    (fun _ => false) none false 2 "COMPLETED" 3
    (fun j hj => by interval_cases j <;> exact Or.inl rfl)
    (fun j hj => rfl) rfl (by decide) (by decide) (by decide)
  refine ⟨⟨fun j hj => by interval_cases j <;> exact Or.inl rfl, rfl,
    by decide, by decide, by decide⟩, ?_⟩
  rw [h]
  decide

theorem range_succ_flatMap (g : Nat → List JSONVal) (m : Nat) :
    (List.range (m + 1)).flatMap g = g 0 ++ (List.range m).flatMap (fun j => g (j + 1)) := by
  rw [List.range_succ_eq_map]
  rw [List.flatMap_cons]
  congr 1
  rw [List.flatMap_map]

theorem range_succ_map_shift {α : Type} (f : Nat → α) (m : Nat) :
    (List.range (m + 1)).map f = f 0 :: (List.range m).map (fun j => f (j + 1)) := by
  rw [List.range_succ_eq_map, List.map_cons, List.map_map]
  rfl

theorem getQueryResultSetLoop_run (fetchPage : Nat → Except Nat RawPage)
    (pg : Nat → RawPage) (rws : Nat → List JSONVal) :
    ∀ n k0 (columns : JSONVal) (rowsAcc : List JSONVal) fuel,
      columns.isNull = false →
      (∀ j, j ≤ n → fetchPage (1000 * (k0 + j)) = Except.ok (pg (k0 + j))) →
      (∀ j, j ≤ n → (pg (k0 + j)).rows = some (rws (k0 + j))) →
      (∀ j, j < n → (rws (k0 + j)).length = 1000) →
      (rws (k0 + n)).length ≠ 1000 →
      n < fuel →
      getQueryResultSetLoop fetchPage (1000 * k0) columns rowsAcc fuel =
        (Except.ok (rowsAcc ++ (List.range (n + 1)).flatMap (fun j => rws (k0 + j)), columns),
          (List.range (n + 1)).map (fun j => 1000 * (k0 + j))) := by
  intro n
  induction n with
  | zero =>
    intro k0 cols acc fuel hcols hok hrows hfull hlast hf
    obtain ⟨f, rfl⟩ : ∃ f, fuel = f + 1 := ⟨fuel - 1, by omega⟩
    rw [getQueryResultSetLoop]
    have h1 := hok 0 (by omega)
    have h2 := hrows 0 (by omega)
    rw [show k0 + 0 = k0 from rfl] at h1 h2 hlast
    simp only [h1]
    rw [if_neg (by simp [hcols])]
    simp only [h2]
    rw [if_pos hlast]
    simp [List.range_succ]
  | succ m ih =>
    intro k0 cols acc fuel hcols hok hrows hfull hlast hf
    obtain ⟨f, rfl⟩ : ∃ f, fuel = f + 1 := ⟨fuel - 1, by omega⟩
    rw [getQueryResultSetLoop]
    have h1 := hok 0 (by omega)
    have h2 := hrows 0 (by omega)
    rw [show k0 + 0 = k0 from rfl] at h1 h2
    have hfull0 : (rws k0).length = 1000 := by
      have h := hfull 0 (by omega)
      rwa [show k0 + 0 = k0 from rfl] at h
    simp only [h1]
    rw [if_neg (by simp [hcols])]
    simp only [h2]
    rw [if_neg (by simp [hfull0])]
    rw [show 1000 * k0 + 1000 = 1000 * (k0 + 1) from by ring]
    have hrec := ih (k0 + 1) cols (acc ++ rws k0) f hcols
      (fun j hj => by
        have h := hok (j + 1) (by omega)
        rwa [show k0 + (j + 1) = k0 + 1 + j from by omega] at h)
      (fun j hj => by
        have h := hrows (j + 1) (by omega)
        rwa [show k0 + (j + 1) = k0 + 1 + j from by omega] at h)
      (fun j hj => by
        have h := hfull (j + 1) (by omega)
        rwa [show k0 + (j + 1) = k0 + 1 + j from by omega] at h)
      (by rwa [show k0 + 1 + m = k0 + (m + 1) from by omega]) (by omega)
    rw [hrec]
    have harith : ∀ j : Nat, k0 + 1 + j = k0 + (j + 1) := fun j => by omega
    simp only [harith]
    rw [range_succ_flatMap (fun j => rws (k0 + j)) (m + 1),
      range_succ_map_shift (fun j => 1000 * (k0 + j)) (m + 1)]
    simp [List.append_assoc]

/-- C5: `GetQueryResultSet` requests pages with the fixed size 1000
starting at offset 0 and advancing the offset by 1000 each round (the
requested offsets are exactly `0, 1000, ..., 1000 * n`), concatenates the
rows of all fetched pages in order, retains the columns of the first page
(given that page's `columns` is non-null, as a real first page's is), and
stops fetching after the first page whose row count is below the page size
(earlier pages being full); no later offset is ever requested. -/
theorem claim_C5_result_set_pagination :
    ∀ (fetchPage : Nat → Except Nat RawPage) (pg : Nat → RawPage)
      (rws : Nat → List JSONVal) (n fuel : Nat),
      (∀ j, j ≤ n → fetchPage (1000 * j) = Except.ok (pg j)) →
      (∀ j, j ≤ n → (pg j).rows = some (rws j)) →
      (∀ j, j < n → (rws j).length = 1000) →
      (rws n).length < 1000 →
      ((pg 0).columns).isNull = false →
      n < fuel →
      GetQueryResultSet fetchPage fuel =
        (Except.ok ((List.range (n + 1)).flatMap rws, (pg 0).columns),
          (List.range (n + 1)).map (fun j => 1000 * j)) := by
  intro fetchPage pg rws n fuel hok hrows hfull hlast hcols hf
  obtain ⟨f, rfl⟩ : ∃ f, fuel = f + 1 := ⟨fuel - 1, by omega⟩
  rw [GetQueryResultSet, getQueryResultSetLoop]
  have h1 : fetchPage 0 = Except.ok (pg 0) := by simpa using hok 0 (by omega)
  have h2 : (pg 0).rows = some (rws 0) := hrows 0 (by omega)
  simp only [h1]
  simp only [JSONVal.isNull]
  rw [if_pos trivial]
  simp only [h2]
  cases n with
  | zero =>
    rw [if_pos (by omega)]
    rw [show List.range 1 = [0] from rfl]
    simp
  | succ m =>
    have hfull0 : (rws 0).length = 1000 := hfull 0 (by omega)
    rw [if_neg (by simp [hfull0])]
    rw [show (0 : Nat) + 1000 = 1000 * 1 from by ring]
    have hrec := getQueryResultSetLoop_run fetchPage pg rws m 1 ((pg 0).columns)
      ([] ++ rws 0) f hcols
      (fun j hj => by
        have h := hok (j + 1) (by omega)
        rwa [show j + 1 = 1 + j from by omega] at h)
      (fun j hj => by
        have h := hrows (j + 1) (by omega)
        rwa [show j + 1 = 1 + j from by omega] at h)
      (fun j hj => by
        have h := hfull (j + 1) (by omega)
        rwa [show j + 1 = 1 + j from by omega] at h)
      (by
        have heq : (1 : Nat) + m = m + 1 := by omega
        rw [heq]
        omega) (by omega)
    rw [hrec]
    have harith : ∀ j : Nat, (1 : Nat) + j = j + 1 := fun j => by omega
    simp only [harith]
    rw [range_succ_flatMap rws (m + 1), range_succ_map_shift (fun j => 1000 * j) (m + 1)]
    simp

theorem claim_C5_result_set_pagination_witness :
    ∃ rows : List JSONVal,
      GetQueryResultSet
          (fun off => Except.ok
            { columns := JSONVal.str "cols",
              rows := some (List.replicate (if off < 2000 then 1000 else 400) JSONVal.null) })
          3 =
        (Except.ok (rows, JSONVal.str "cols"), [0, 1000, 2000]) ∧
      rows.length = 2400 := by
  have h := claim_C5_result_set_pagination
    (fun off => Except.ok
      { columns := JSONVal.str "cols",
        rows := some (List.replicate (if off < 2000 then 1000 else 400) JSONVal.null) })
    (fun k => { columns := JSONVal.str "cols",
                rows := some (List.replicate (if k < 2 then 1000 else 400) JSONVal.null) })
    (fun k => List.replicate (if k < 2 then 1000 else 400) JSONVal.null)
    2 3
    (fun j hj => by interval_cases j <;> rfl)
    (fun j hj => by interval_cases j <;> rfl)
    (fun j hj => by
      interval_cases j
      · show (List.replicate (if (0 : Nat) < 2 then 1000 else 400) JSONVal.null).length = 1000
        rw [if_pos (by omega)]
        exact List.length_replicate 1000 JSONVal.null
      · show (List.replicate (if (1 : Nat) < 2 then 1000 else 400) JSONVal.null).length = 1000
        rw [if_pos (by omega)]
        exact List.length_replicate 1000 JSONVal.null)
    (by
      show (List.replicate (if (2 : Nat) < 2 then 1000 else 400) JSONVal.null).length < 1000
      rw [if_neg (by omega)]
      rw [List.length_replicate]
      omega)
    rfl
    (by omega)
  refine ⟨(List.range 3).flatMap
    (fun k => List.replicate (if k < 2 then 1000 else 400) JSONVal.null), ?_, ?_⟩
  · rw [h]
    rfl
  · rw [show List.range 3 = [0, 1, 2] from rfl]
    rw [List.flatMap_cons, List.flatMap_cons, List.flatMap_cons, List.flatMap_nil]
    rw [List.length_append, List.length_append, List.length_append]
    norm_num [List.length_replicate]

end YQ
